import Mathlib

/-!
Verification of the Maryland Vector Hotspot Explorer pipeline (src/app.py).

The app runs one pipeline per user action: fetch occurrences from GBIF,
drop records with missing year/month, spatially join the points to county
polygons (external collaborator `assign_to_counties`), aggregate by
(county NAME_2, queried_scientificName) into occurrence counts, turn the
counts into a normalized Risk Score via log1p / column-max / round(2),
left-merge the aggregate against the full county GeoJSON with a fillna(0),
and finally bucket occurrences monthly and annually (with an optional
two-county comparison mode).

The embedding below translates the dataframe operations of app.py into
list-processing functions.  Dataframes become lists of structure rows;
groupby(...).size() becomes `groupCount` (distinct keys paired with the
number of rows carrying each key); numpy floats become real numbers, with
`np.log1p` as `Real.log (1 + ·)` and `.round(2)` as rounding of the
hundredfold to the nearest integer.  Row order inside an aggregate is
abstracted (pandas sorts group keys; `List.dedup` keeps another order);
no property below depends on the order of aggregate rows.
-/

open Real

/-- One row of `gdf_joined` (src/app.py line 94): an occurrence record that
the spatial join assigned to a county.  `county` is the NAME_2 column,
`species` is the queried_scientificName column set on line 75; `year` and
`month` survive the dropna on line 85 so they are present. -/
structure JoinedRow where
  county : String
  species : String
  year : Int
  month : Int
deriving DecidableEq, Repr

/-- `rows.groupby(keys).size().reset_index(name=...)`: one output pair per
distinct key occurring in `rows`, carrying the number of rows with that
key.  Mirrors the pandas groupby/size idiom used on lines 98-103, 147-152,
163-168, 183-188 and 200-205 of src/app.py. -/
def groupCount {α κ : Type} [DecidableEq κ] (rows : List α) (k : α → κ) :
    List (κ × Nat) :=
  ((rows.map k).dedup).map
    (fun key => (key, (rows.filter (fun r => k r = key)).length))

/-- Lines 98-103 of src/app.py: `county_counts`, the occurrence count per
(NAME_2, queried_scientificName) group of the joined set. -/
def countyCounts (rows : List JoinedRow) : List ((String × String) × Nat) :=
  groupCount rows (fun r => (r.county, r.species))

/-- Line 104 of src/app.py: the raw Risk Score column,
`np.log1p(occurrence_count)` = ln (1 + count). -/
noncomputable def rawScore (c : Nat) : ℝ := Real.log (1 + (c : ℝ))

/-- `Series.max()` over a column, as used on line 105 of src/app.py.
Pandas yields NaN on an empty column; the pipeline only evaluates it on
the non-empty aggregate of a non-empty joined set, so the `[]` case value
is never relied upon. -/
noncomputable def colMax : List ℝ → ℝ
  | [] => 0
  | [x] => x
  | x :: y :: t => max x (colMax (y :: t))

/-- Line 106 of src/app.py: `.round(2)`, rounding to two decimal places
(the hundredfold rounded to the nearest integer, divided by 100). -/
noncomputable def round2 (x : ℝ) : ℝ := ((round (100 * x) : ℤ) : ℝ) / 100

/-- One row of the final `county_counts` dataframe after lines 104-106 of
src/app.py: the (county, species) key, the group's occurrence_count, and
the Risk Score column after log1p, division by the column max, and
rounding. -/
structure AggRow where
  county : String
  species : String
  occurrence_count : Nat
  risk_score : ℝ

/-- Lines 98-106 of src/app.py as one function: the aggregate table with
its Risk Score column.  `m` is `county_counts["Risk Score"].max()` taken
over the raw (pre-division) scores, exactly as line 105 divides the column
by its own max. -/
noncomputable def aggTable (rows : List JoinedRow) : List AggRow :=
  let cc := countyCounts rows
  let m := colMax (cc.map (fun g => rawScore g.2))
  cc.map (fun g => ⟨g.1.1, g.1.2, g.2, round2 (rawScore g.2 / m)⟩)

section GroupCountLemmas

variable {α κ : Type} [DecidableEq κ]

theorem groupCount_key_mem {rows : List α} {k : α → κ} {p : κ × Nat}
    (hp : p ∈ groupCount rows k) : ∃ r ∈ rows, k r = p.1 := by
  rcases List.mem_map.mp hp with ⟨key, hkey, hpe⟩
  rcases List.mem_map.mp (List.mem_dedup.mp hkey) with ⟨r, hr, hkr⟩
  exact ⟨r, hr, by rw [hkr, ← hpe]⟩

theorem groupCount_count_eq {rows : List α} {k : α → κ} {p : κ × Nat}
    (hp : p ∈ groupCount rows k) :
    p.2 = (rows.filter (fun r => k r = p.1)).length := by
  rcases List.mem_map.mp hp with ⟨key, _, hpe⟩
  rw [← hpe]

theorem groupCount_mem_of_mem {rows : List α} {k : α → κ} {r : α}
    (hr : r ∈ rows) :
    (k r, (rows.filter (fun x => k x = k r)).length) ∈ groupCount rows k := by
  exact List.mem_map.mpr
    ⟨k r, List.mem_dedup.mpr (List.mem_map.mpr ⟨r, hr, rfl⟩), rfl⟩

theorem groupCount_count_pos {rows : List α} {k : α → κ} {p : κ × Nat}
    (hp : p ∈ groupCount rows k) : 1 ≤ p.2 := by
  rcases groupCount_key_mem hp with ⟨r, hr, hkr⟩
  rw [groupCount_count_eq hp]
  have : r ∈ rows.filter (fun x => k x = p.1) :=
    List.mem_filter.mpr ⟨hr, by simp [hkr]⟩
  exact List.length_pos.mpr (fun hnil => by simp [hnil] at this)

theorem groupCount_ne_nil {rows : List α} {k : α → κ} (h : rows ≠ []) :
    groupCount rows k ≠ [] := by
  intro hg
  have h1 : ((rows.map k).dedup) = [] := List.map_eq_nil_iff.mp hg
  have h2 : rows.map k = [] := (List.dedup_eq_nil _).mp h1
  exact h (List.map_eq_nil_iff.mp h2)

end GroupCountLemmas

section ColMaxLemmas

theorem le_colMax {x : ℝ} : ∀ {l : List ℝ}, x ∈ l → x ≤ colMax l
  | [], h => absurd h (List.not_mem_nil x)
  | [y], h => by
      rcases List.mem_singleton.mp h with rfl
      exact le_of_eq rfl
  | y :: z :: t, h => by
      rcases List.mem_cons.mp h with rfl | h2
      · exact le_max_left _ _
      · exact le_trans (le_colMax h2) (le_max_right _ _)

theorem colMax_mem : ∀ {l : List ℝ}, l ≠ [] → colMax l ∈ l
  | [], h => absurd rfl h
  | [y], _ => by simp [colMax]
  | y :: z :: t, _ => by
      show max y (colMax (z :: t)) ∈ y :: z :: t
      rcases max_choice y (colMax (z :: t)) with hm | hm
      · rw [hm]; exact List.mem_cons_self _ _
      · rw [hm]; exact List.mem_cons_of_mem _ (colMax_mem (by simp))

end ColMaxLemmas

section Round2Lemmas

theorem round2_mono {x y : ℝ} (h : x ≤ y) : round2 x ≤ round2 y := by
  unfold round2
  have hr : round (100 * x) ≤ round (100 * y) := by
    rw [round_eq, round_eq]
    exact Int.floor_mono (by linarith)
  exact (div_le_div_iff_of_pos_right (by norm_num)).mpr (Int.cast_le.mpr hr)

theorem round2_nonneg {x : ℝ} (h : 0 ≤ x) : 0 ≤ round2 x := by
  have h0 : round2 0 ≤ round2 x := round2_mono h
  have : round2 (0 : ℝ) = 0 := by unfold round2; simp
  linarith

theorem round2_le_one {x : ℝ} (h : x ≤ 1) : round2 x ≤ 1 := by
  have h1 : round2 x ≤ round2 1 := round2_mono h
  have : round2 (1 : ℝ) = 1 := by
    unfold round2
    rw [mul_one, show (100 : ℝ) = ((100 : ℤ) : ℝ) by norm_num, round_intCast]
    norm_num
  linarith

theorem round2_one : round2 (1 : ℝ) = 1 := by
  unfold round2
  rw [mul_one, show (100 : ℝ) = ((100 : ℤ) : ℝ) by norm_num, round_intCast]
  norm_num

end Round2Lemmas

section RawScoreLemmas

theorem rawScore_pos {c : Nat} (h : 1 ≤ c) : 0 < rawScore c := by
  unfold rawScore
  have : (1 : ℝ) < 1 + (c : ℝ) := by
    have : (1 : ℝ) ≤ (c : ℝ) := by exact_mod_cast h
    linarith
  exact Real.log_pos this

theorem rawScore_nonneg (c : Nat) : 0 ≤ rawScore c := by
  unfold rawScore
  exact Real.log_nonneg (le_add_of_nonneg_right (Nat.cast_nonneg c))

theorem rawScore_mono {c d : Nat} (h : c ≤ d) : rawScore c ≤ rawScore d := by
  unfold rawScore
  have hcd : (c : ℝ) ≤ (d : ℝ) := by exact_mod_cast h
  exact Real.log_le_log (by positivity) (by linarith)

end RawScoreLemmas

/-- The divisor of line 105 of src/app.py: the maximum of the raw (log1p)
Risk Score column over all groups of the run. -/
noncomputable def maxRaw (rows : List JoinedRow) : ℝ :=
  colMax ((countyCounts rows).map (fun g => rawScore g.2))

theorem aggTable_eq (rows : List JoinedRow) :
    aggTable rows = (countyCounts rows).map
      (fun g => ⟨g.1.1, g.1.2, g.2, round2 (rawScore g.2 / maxRaw rows)⟩) := rfl

theorem rawScore_le_maxRaw {rows : List JoinedRow}
    {g : (String × String) × Nat} (hg : g ∈ countyCounts rows) :
    rawScore g.2 ≤ maxRaw rows :=
  le_colMax (List.mem_map.mpr ⟨g, hg, rfl⟩)

theorem maxRaw_pos {rows : List JoinedRow}
    {g : (String × String) × Nat} (hg : g ∈ countyCounts rows) :
    0 < maxRaw rows :=
  lt_of_lt_of_le (rawScore_pos (groupCount_count_pos hg)) (rawScore_le_maxRaw hg)

theorem mem_aggTable {rows : List JoinedRow} {a : AggRow}
    (ha : a ∈ aggTable rows) :
    ∃ g ∈ countyCounts rows, a.occurrence_count = g.2 ∧
      a.risk_score = round2 (rawScore g.2 / maxRaw rows) := by
  rw [aggTable_eq] at ha
  rcases List.mem_map.mp ha with ⟨g, hg, hge⟩
  exact ⟨g, hg, by rw [← hge], by rw [← hge]⟩

/-- **C1.** For every non-empty joined-occurrence set there is a divisor M
which is the maximum of ln (1 + count) over the (county, species) groups
of the run — M is attained by some group and bounds every group's raw
score — and every aggregate row's Risk Score equals
round2 (ln (1 + count) / M), exactly as lines 104-106 of src/app.py
compute log1p of the count column, divide by the column's max, and round
to 2 decimal places. -/
theorem risk_score_formula (rows : List JoinedRow) (h : rows ≠ []) :
    ∃ M : ℝ,
      (∃ g ∈ countyCounts rows, M = rawScore g.2) ∧
      (∀ g ∈ countyCounts rows, rawScore g.2 ≤ M) ∧
      (∀ a ∈ aggTable rows,
        a.risk_score = round2 (rawScore a.occurrence_count / M)) := by
  refine ⟨maxRaw rows, ?_, ?_, ?_⟩
  · have hnil : (countyCounts rows).map (fun g => rawScore g.2) ≠ [] := by
      intro hmap
      exact groupCount_ne_nil h (List.map_eq_nil_iff.mp hmap)
    rcases List.mem_map.mp (colMax_mem hnil) with ⟨g, hg, hge⟩
    exact ⟨g, hg, hge.symm⟩
  · intro g hg
    exact rawScore_le_maxRaw hg
  · intro a ha
    rcases mem_aggTable ha with ⟨g, _, hcount, hrisk⟩
    rw [hrisk, hcount]

/-- Witness for `risk_score_formula` on the one-row joined set. -/
theorem risk_score_formula_witness :
    ([⟨"Baltimore", "Aedes albopictus", 2021, 6⟩] : List JoinedRow) ≠ [] ∧
    ∃ M : ℝ,
      (∃ g ∈ countyCounts [⟨"Baltimore", "Aedes albopictus", 2021, 6⟩],
        M = rawScore g.2) ∧
      (∀ g ∈ countyCounts [⟨"Baltimore", "Aedes albopictus", 2021, 6⟩],
        rawScore g.2 ≤ M) ∧
      (∀ a ∈ aggTable [⟨"Baltimore", "Aedes albopictus", 2021, 6⟩],
        a.risk_score = round2 (rawScore a.occurrence_count / M)) :=
  ⟨by decide, risk_score_formula _ (by decide)⟩

/-- **C2.** Every aggregate row of a non-empty joined-occurrence set has
0 ≤ Risk Score ≤ 1, and at least one row (the one whose raw score attains
the column max that line 105 of src/app.py divides by) has Risk Score
exactly 1. -/
theorem risk_score_bounds (rows : List JoinedRow) (h : rows ≠ []) :
    (∀ a ∈ aggTable rows, 0 ≤ a.risk_score ∧ a.risk_score ≤ 1) ∧
    ∃ a ∈ aggTable rows, a.risk_score = 1 := by
  constructor
  · intro a ha
    rcases mem_aggTable ha with ⟨g, hg, _, hrisk⟩
    have hM : 0 < maxRaw rows := maxRaw_pos hg
    constructor
    · rw [hrisk]
      exact round2_nonneg (div_nonneg (rawScore_nonneg _) (le_of_lt hM))
    · rw [hrisk]
      exact round2_le_one ((div_le_one hM).mpr (rawScore_le_maxRaw hg))
  · have hnil : (countyCounts rows).map (fun g => rawScore g.2) ≠ [] := by
      intro hmap
      exact groupCount_ne_nil h (List.map_eq_nil_iff.mp hmap)
    rcases List.mem_map.mp (colMax_mem hnil) with ⟨g, hg, hge⟩
    refine ⟨⟨g.1.1, g.1.2, g.2, round2 (rawScore g.2 / maxRaw rows)⟩,
      ?_, ?_⟩
    · rw [aggTable_eq]
      exact List.mem_map.mpr ⟨g, hg, rfl⟩
    · show round2 (rawScore g.2 / maxRaw rows) = 1
      have hM : 0 < maxRaw rows := maxRaw_pos hg
      rw [show rawScore g.2 = maxRaw rows from hge,
        div_self (ne_of_gt hM), round2_one]

/-- Witness for `risk_score_bounds` on the one-row joined set. -/
theorem risk_score_bounds_witness :
    ([⟨"Harford", "Rattus norvegicus", 2022, 3⟩] : List JoinedRow) ≠ [] ∧
    ((∀ a ∈ aggTable [⟨"Harford", "Rattus norvegicus", 2022, 3⟩],
        0 ≤ a.risk_score ∧ a.risk_score ≤ 1) ∧
      ∃ a ∈ aggTable [⟨"Harford", "Rattus norvegicus", 2022, 3⟩],
        a.risk_score = 1) :=
  ⟨by decide, risk_score_bounds _ (by decide)⟩

/-- **C4.** Among aggregate rows of the same run with the same species, a
strictly larger occurrence_count yields a greater-or-equal Risk Score:
log1p is monotone, the rows share the divisor of line 105 of src/app.py,
and rounding is monotone. -/
theorem risk_score_monotone (rows : List JoinedRow) (a b : AggRow)
    (ha : a ∈ aggTable rows) (hb : b ∈ aggTable rows)
    (_hs : a.species = b.species)
    (hc : b.occurrence_count < a.occurrence_count) :
    b.risk_score ≤ a.risk_score := by
  rcases mem_aggTable ha with ⟨ga, hga, hca, hra⟩
  rcases mem_aggTable hb with ⟨gb, hgb, hcb, hrb⟩
  have hM : 0 < maxRaw rows := maxRaw_pos hga
  have hraw : rawScore gb.2 ≤ rawScore ga.2 := by
    apply rawScore_mono
    rw [← hca, ← hcb]
    exact le_of_lt hc
  rw [hra, hrb]
  exact round2_mono ((div_le_div_iff_of_pos_right hM).mpr hraw)

/-- Concrete joined set for the `risk_score_monotone` witness: two
occurrences in Montgomery, one in Frederick, one species. -/
def monoRows : List JoinedRow :=
  [⟨"Montgomery", "Aedes aegypti", 2020, 4⟩,
   ⟨"Montgomery", "Aedes aegypti", 2020, 7⟩,
   ⟨"Frederick", "Aedes aegypti", 2020, 5⟩]

/-- Witness for `risk_score_monotone` on `monoRows`: the Montgomery row
(count 2) and the Frederick row (count 1). -/
theorem risk_score_monotone_witness :
    ((⟨"Montgomery", "Aedes aegypti", 2,
        round2 (rawScore 2 / maxRaw monoRows)⟩ : AggRow) ∈ aggTable monoRows) ∧
    ((⟨"Frederick", "Aedes aegypti", 1,
        round2 (rawScore 1 / maxRaw monoRows)⟩ : AggRow) ∈ aggTable monoRows) ∧
    (AggRow.species ⟨"Montgomery", "Aedes aegypti", 2,
        round2 (rawScore 2 / maxRaw monoRows)⟩ =
      AggRow.species ⟨"Frederick", "Aedes aegypti", 1,
        round2 (rawScore 1 / maxRaw monoRows)⟩) ∧
    (1 < 2) ∧
    AggRow.risk_score ⟨"Frederick", "Aedes aegypti", 1,
        round2 (rawScore 1 / maxRaw monoRows)⟩ ≤
      AggRow.risk_score ⟨"Montgomery", "Aedes aegypti", 2,
        round2 (rawScore 2 / maxRaw monoRows)⟩ := by
  have hcc : countyCounts monoRows =
      [(("Montgomery", "Aedes aegypti"), 2), (("Frederick", "Aedes aegypti"), 1)] := by
    decide
  have hA : (⟨"Montgomery", "Aedes aegypti", 2,
      round2 (rawScore 2 / maxRaw monoRows)⟩ : AggRow) ∈ aggTable monoRows := by
    rw [aggTable_eq, hcc]
    exact List.mem_map.mpr ⟨(("Montgomery", "Aedes aegypti"), 2), by simp, rfl⟩
  have hB : (⟨"Frederick", "Aedes aegypti", 1,
      round2 (rawScore 1 / maxRaw monoRows)⟩ : AggRow) ∈ aggTable monoRows := by
    rw [aggTable_eq, hcc]
    exact List.mem_map.mpr ⟨(("Frederick", "Aedes aegypti"), 1), by simp, rfl⟩
  exact ⟨hA, hB, rfl, by norm_num,
    risk_score_monotone monoRows _ _ hA hB rfl (by norm_num)⟩

theorem length_filter_eq_count_map {α κ : Type} [DecidableEq κ]
    (rows : List α) (k : α → κ) (key : κ) :
    (rows.filter (fun r => k r = key)).length = (rows.map k).count key := by
  induction rows with
  | nil => simp
  | cons r rs ih =>
      by_cases h : k r = key <;>
        simp [List.filter_cons, List.count_cons, h, ih]

theorem sum_groupCount {α κ : Type} [DecidableEq κ]
    (rows : List α) (k : α → κ) :
    ((groupCount rows k).map (fun p => p.2)).sum = rows.length := by
  have h1 : (groupCount rows k).map (fun p => p.2) =
      ((rows.map k).dedup).map
        (fun key => (rows.filter (fun r => k r = key)).length) := by
    rw [groupCount, List.map_map]
    rfl
  have h2 : ((rows.map k).dedup).map
        (fun key => (rows.filter (fun r => k r = key)).length) =
      ((rows.map k).dedup).map (fun key => (rows.map k).count key) :=
    List.map_congr_left (fun key _ => length_filter_eq_count_map rows k key)
  rw [h1, h2, List.sum_map_count_dedup_eq_length, List.length_map]

/-- **C3.** Count conservation: the occurrence_count column of the
(county, species) aggregate of lines 98-103 of src/app.py sums to the
number of joined-occurrence rows — every joined row lands in exactly one
group.  (This holds for any joined set, in particular for the
single-species sets the app produces.) -/
theorem count_conservation (rows : List JoinedRow) :
    ((countyCounts rows).map (fun p => p.2)).sum = rows.length :=
  sum_groupCount rows (fun r => (r.county, r.species))

/-- One row of `county_geo.merge(county_counts, on="NAME_2", how="left")`
(src/app.py lines 120-125) before the fillna: the county name from the
GeoJSON, and the aggregate columns, which are NaN (here `none`) when the
county has no aggregate row. -/
structure PreMergedRow where
  county : String
  species : Option String
  occurrence_count : Option Nat
  risk_score : Option ℝ

/-- One row of `merged` after `.fillna({"Risk Score": 0,
"occurrence_count": 0})` (line 125): the numeric columns are filled with
0, the species column keeps its NaN (`none`) for unmatched counties. -/
structure MergedRow where
  county : String
  species : Option String
  occurrence_count : Nat
  risk_score : ℝ

/-- Lines 121-124 of src/app.py: pandas left merge of the county GeoJSON
(represented by its NAME_2 column) with the aggregate table on NAME_2 —
each left county keeps every matching aggregate row, and a county with no
match keeps one row with NaN aggregate columns. -/
noncomputable def leftMerge (geo : List String) (agg : List AggRow) :
    List PreMergedRow :=
  geo.flatMap (fun c =>
    match agg.filter (fun a => a.county = c) with
    | [] => [⟨c, none, none, none⟩]
    | ms => ms.map (fun a => ⟨c, some a.species, some a.occurrence_count,
        some a.risk_score⟩))

/-- Line 125 of src/app.py: `.fillna({"Risk Score": 0,
"occurrence_count": 0})`. -/
noncomputable def fillna (rows : List PreMergedRow) : List MergedRow :=
  rows.map (fun r => ⟨r.county, r.species, r.occurrence_count.getD 0,
    r.risk_score.getD 0⟩)

/-- Lines 120-125 of src/app.py: the `merged` dataframe fed to the
choropleth map. -/
noncomputable def merged (geo : List String) (agg : List AggRow) :
    List MergedRow :=
  fillna (leftMerge geo agg)

theorem aggTable_county_mem {rows : List JoinedRow} {a : AggRow}
    (ha : a ∈ aggTable rows) : ∃ r ∈ rows, r.county = a.county := by
  rw [aggTable_eq] at ha
  rcases List.mem_map.mp ha with ⟨g, hg, hge⟩
  rcases groupCount_key_mem hg with ⟨r, hr, hkr⟩
  refine ⟨r, hr, ?_⟩
  rw [← hge]
  show r.county = g.1.1
  rw [← hkr]

/-- **C5.** After the aggregate table is left-joined against the full
county list and filled (src/app.py lines 120-125), every county of the
reference list with no observed occurrence appears in `merged` with
occurrence_count 0 and Risk Score 0 — filled, not dropped. -/
theorem fill_on_merge (geo : List String) (rows : List JoinedRow)
    (c : String) (hc : c ∈ geo) (hnone : ∀ r ∈ rows, r.county ≠ c) :
    (⟨c, none, 0, 0⟩ : MergedRow) ∈ merged geo (aggTable rows) := by
  have hfilter : (aggTable rows).filter (fun a => a.county = c) = [] := by
    apply List.filter_eq_nil_iff.mpr
    intro a ha
    rcases aggTable_county_mem ha with ⟨r, hr, hrc⟩
    simp only [decide_eq_true_eq]
    intro hac
    exact hnone r hr (by rw [hrc, hac])
  have hpre : (⟨c, none, none, none⟩ : PreMergedRow) ∈
      leftMerge geo (aggTable rows) := by
    unfold leftMerge
    apply List.mem_flatMap.mpr
    refine ⟨c, hc, ?_⟩
    rw [hfilter]
    exact List.mem_singleton.mpr rfl
  unfold merged fillna
  exact List.mem_map.mpr ⟨⟨c, none, none, none⟩, hpre, rfl⟩

/-- Witness for `fill_on_merge`: one occurrence in Baltimore, and Garrett
(present in the county list, absent from the joined set) comes out of the
merge with count 0 and Risk Score 0. -/
theorem fill_on_merge_witness :
    ("Garrett" ∈ ["Baltimore", "Garrett"]) ∧
    (∀ r ∈ ([⟨"Baltimore", "Aedes albopictus", 2021, 8⟩] : List JoinedRow),
      r.county ≠ "Garrett") ∧
    (⟨"Garrett", none, 0, 0⟩ : MergedRow) ∈
      merged ["Baltimore", "Garrett"]
        (aggTable [⟨"Baltimore", "Aedes albopictus", 2021, 8⟩]) :=
  ⟨by decide, by decide,
    fill_on_merge _ _ _ (by decide) (by decide)⟩

/-- One row of the cleaned `df_occ` (src/app.py lines 85-91): species set
on line 75, year and month present after the dropna.  The `year_month`
column of line 88 is determined by (year, month), so it is kept implicit
and bucket keys carry the (year, month) pair instead. -/
structure OccRow where
  species : String
  year : Int
  month : Int
deriving DecidableEq, Repr

/-- Bucket key of `monthly_counts` (src/app.py lines 146-168), uniformly
over both branches: the year_month pair, the queried_scientificName, and
the NAME_2 column, which only the comparison branch of lines 147-152
includes (`none` in the all-counties branch of lines 163-168). -/
structure MKey where
  ym : Int × Int
  species : String
  county : Option String
deriving DecidableEq, Repr

/-- Bucket key of `annual_counts` (src/app.py lines 182-205), uniformly
over both branches.  The comparison branch of lines 183-188 groups by
["year", "NAME_2"] only, so there `species` is `none`; the all-species
branch of lines 200-205 groups by ["year", "queried_scientificName"], so
there `county` is `none`. -/
structure AKey where
  year : Int
  species : Option String
  county : Option String
deriving DecidableEq, Repr

/-- Lines 146-168 of src/app.py: `monthly_counts`.  When county comparison
is on and exactly two counties are selected, group the joined rows whose
NAME_2 is one of the selected counties by (year_month,
queried_scientificName, NAME_2); otherwise group all of `df_occ` by
(year_month, queried_scientificName). -/
def monthlyCounts (occ : List OccRow) (joined : List JoinedRow)
    (compareCounties : Bool) (sel : List String) : List (MKey × Nat) :=
  if compareCounties = true ∧ sel.length = 2 then
    groupCount (joined.filter (fun r => r.county ∈ sel))
      (fun r => ⟨(r.year, r.month), r.species, some r.county⟩)
  else
    groupCount occ (fun r => ⟨(r.year, r.month), r.species, none⟩)

/-- Lines 182-205 of src/app.py: `annual_counts`.  When county comparison
is on and exactly two counties are selected, group the joined rows whose
NAME_2 is one of the selected counties by ("year", "NAME_2") — note the
source groups by year and county only, without the species column;
otherwise group all of `df_occ` by ("year", "queried_scientificName"). -/
def annualCounts (occ : List OccRow) (joined : List JoinedRow)
    (compareCounties : Bool) (sel : List String) : List (AKey × Nat) :=
  if compareCounties = true ∧ sel.length = 2 then
    groupCount (joined.filter (fun r => r.county ∈ sel))
      (fun r => ⟨r.year, none, some r.county⟩)
  else
    groupCount occ (fun r => ⟨r.year, some r.species, none⟩)

/-- **C6.** With comparison mode on and exactly two counties selected,
every monthly and annual bucket belongs to one of the two selected
counties (the input rows are restricted by `isin(county_selection)` on
lines 148 and 184 of src/app.py); with fewer than two counties selected,
both outputs are the species-keyed groupings of the full `df_occ`, with
no county bucket. -/
theorem comparison_mode_restriction (occ : List OccRow)
    (joined : List JoinedRow) (compareCounties : Bool) (sel : List String) :
    (compareCounties = true → sel.length = 2 →
      (∀ p ∈ monthlyCounts occ joined compareCounties sel,
        ∃ c ∈ sel, p.1.county = some c) ∧
      (∀ p ∈ annualCounts occ joined compareCounties sel,
        ∃ c ∈ sel, p.1.county = some c)) ∧
    (sel.length < 2 →
      (∀ p ∈ monthlyCounts occ joined compareCounties sel,
        p.1.county = none) ∧
      monthlyCounts occ joined compareCounties sel =
        groupCount occ (fun r => ⟨(r.year, r.month), r.species, none⟩) ∧
      (∀ p ∈ annualCounts occ joined compareCounties sel,
        p.1.county = none) ∧
      annualCounts occ joined compareCounties sel =
        groupCount occ (fun r => ⟨r.year, some r.species, none⟩)) := by
  constructor
  · intro hcmp hlen
    have hif : (compareCounties = true ∧ sel.length = 2) := ⟨hcmp, hlen⟩
    constructor
    · intro p hp
      rw [monthlyCounts, if_pos hif] at hp
      rcases groupCount_key_mem hp with ⟨r, hr, hkr⟩
      have hrsel : r.county ∈ sel := by
        have := List.mem_filter.mp hr
        simpa using this.2
      exact ⟨r.county, hrsel, by rw [← hkr]⟩
    · intro p hp
      rw [annualCounts, if_pos hif] at hp
      rcases groupCount_key_mem hp with ⟨r, hr, hkr⟩
      have hrsel : r.county ∈ sel := by
        have := List.mem_filter.mp hr
        simpa using this.2
      exact ⟨r.county, hrsel, by rw [← hkr]⟩
  · intro hlen
    have hif : ¬ (compareCounties = true ∧ sel.length = 2) := by
      rintro ⟨_, hl⟩
      omega
    refine ⟨?_, by rw [monthlyCounts, if_neg hif], ?_,
      by rw [annualCounts, if_neg hif]⟩
    · intro p hp
      rw [monthlyCounts, if_neg hif] at hp
      rcases groupCount_key_mem hp with ⟨r, _, hkr⟩
      rw [← hkr]
    · intro p hp
      rw [annualCounts, if_neg hif] at hp
      rcases groupCount_key_mem hp with ⟨r, _, hkr⟩
      rw [← hkr]

/-- Witness for `comparison_mode_restriction`: applies the comparison
branch with the two selected counties and one in-selection joined row,
and the no-selection branch with an empty selection. -/
theorem comparison_mode_restriction_witness :
    ((true = true → (["Montgomery", "Frederick"] : List String).length = 2 →
      (∀ p ∈ monthlyCounts [⟨"Aedes aegypti", 2021, 7⟩]
          [⟨"Montgomery", "Aedes aegypti", 2021, 7⟩] true
          ["Montgomery", "Frederick"],
        ∃ c ∈ ["Montgomery", "Frederick"], p.1.county = some c) ∧
      (∀ p ∈ annualCounts [⟨"Aedes aegypti", 2021, 7⟩]
          [⟨"Montgomery", "Aedes aegypti", 2021, 7⟩] true
          ["Montgomery", "Frederick"],
        ∃ c ∈ ["Montgomery", "Frederick"], p.1.county = some c)) ∧
    (([] : List String).length < 2 →
      (∀ p ∈ monthlyCounts [⟨"Aedes aegypti", 2021, 7⟩]
          [⟨"Montgomery", "Aedes aegypti", 2021, 7⟩] true [],
        p.1.county = none) ∧
      monthlyCounts [⟨"Aedes aegypti", 2021, 7⟩]
          [⟨"Montgomery", "Aedes aegypti", 2021, 7⟩] true [] =
        groupCount ([⟨"Aedes aegypti", 2021, 7⟩] : List OccRow)
          (fun r => (⟨(r.year, r.month), r.species, none⟩ : MKey)) ∧
      (∀ p ∈ annualCounts [⟨"Aedes aegypti", 2021, 7⟩]
          [⟨"Montgomery", "Aedes aegypti", 2021, 7⟩] true [],
        p.1.county = none) ∧
      annualCounts [⟨"Aedes aegypti", 2021, 7⟩]
          [⟨"Montgomery", "Aedes aegypti", 2021, 7⟩] true [] =
        groupCount ([⟨"Aedes aegypti", 2021, 7⟩] : List OccRow)
          (fun r => (⟨r.year, some r.species, none⟩ : AKey)))) := by
  constructor
  · intro _ _
    exact (comparison_mode_restriction _ _ true _).1 rfl (by decide)
  · intro _
    exact (comparison_mode_restriction _ _ true _).2 (by decide)

/-- Counterexample to **C7** as stated.  Single-species run, comparison
mode active with Montgomery and Frederick selected, one joined occurrence
in Montgomery: the claim expects the observed bucket key
(2020, "Aedes aegypti", Montgomery) to appear with count 1, but the
comparison branch on line 185 of src/app.py groups by ["year", "NAME_2"]
only, so the annual output carries no species in its key and the claimed
key is absent. -/
theorem annual_species_key_counterexample :
    ((⟨2020, some "Aedes aegypti", some "Montgomery"⟩, 1) : AKey × Nat) ∉
      annualCounts [⟨"Aedes aegypti", 2020, 5⟩]
        [⟨"Montgomery", "Aedes aegypti", 2020, 5⟩] true
        ["Montgomery", "Frederick"] := by decide

/-- **C7 (amended).** The annual output is keyed by (year, species) when
comparison mode is inactive; when comparison mode is active with two
counties selected, it is keyed by (year, county) only — the species
column is omitted by the groupby on line 185 of src/app.py.  In both
modes every observed bucket key appears, paired with the number of
in-scope occurrence rows carrying that key. -/
theorem annual_bucket_key (occ : List OccRow) (joined : List JoinedRow)
    (compareCounties : Bool) (sel : List String) :
    (compareCounties = true → sel.length = 2 →
      (∀ p ∈ annualCounts occ joined compareCounties sel,
        p.1.species = none) ∧
      (∀ r ∈ joined, r.county ∈ sel →
        ((⟨r.year, none, some r.county⟩ : AKey),
          ((joined.filter (fun x => x.county ∈ sel)).filter
            (fun x => (⟨x.year, none, some x.county⟩ : AKey) =
              ⟨r.year, none, some r.county⟩)).length) ∈
          annualCounts occ joined compareCounties sel)) ∧
    (sel.length < 2 →
      ∀ r ∈ occ,
        ((⟨r.year, some r.species, none⟩ : AKey),
          (occ.filter
            (fun x => (⟨x.year, some x.species, none⟩ : AKey) =
              ⟨r.year, some r.species, none⟩)).length) ∈
          annualCounts occ joined compareCounties sel) := by
  constructor
  · intro hcmp hlen
    have hif : (compareCounties = true ∧ sel.length = 2) := ⟨hcmp, hlen⟩
    constructor
    · intro p hp
      rw [annualCounts, if_pos hif] at hp
      rcases groupCount_key_mem hp with ⟨r, _, hkr⟩
      rw [← hkr]
    · intro r hr hsel
      rw [annualCounts, if_pos hif]
      have hrf : r ∈ joined.filter (fun x => x.county ∈ sel) :=
        List.mem_filter.mpr ⟨hr, by simpa using hsel⟩
      exact groupCount_mem_of_mem hrf
  · intro hlen
    have hif : ¬ (compareCounties = true ∧ sel.length = 2) := by
      rintro ⟨_, hl⟩
      omega
    intro r hr
    rw [annualCounts, if_neg hif]
    exact groupCount_mem_of_mem hr

/-- Witness for `annual_bucket_key`: one Montgomery occurrence, applied
in comparison mode with two counties selected and again with an empty
selection. -/
theorem annual_bucket_key_witness :
    (∀ p ∈ annualCounts [⟨"Aedes aegypti", 2020, 5⟩]
        [⟨"Montgomery", "Aedes aegypti", 2020, 5⟩] true
        ["Montgomery", "Frederick"],
      p.1.species = none) ∧
    ((⟨2020, none, some "Montgomery"⟩ : AKey),
      ((([⟨"Montgomery", "Aedes aegypti", 2020, 5⟩] : List JoinedRow).filter
          (fun x => x.county ∈ ["Montgomery", "Frederick"])).filter
        (fun x => (⟨x.year, none, some x.county⟩ : AKey) =
          ⟨2020, none, some "Montgomery"⟩)).length) ∈
      annualCounts [⟨"Aedes aegypti", 2020, 5⟩]
        [⟨"Montgomery", "Aedes aegypti", 2020, 5⟩] true
        ["Montgomery", "Frederick"] ∧
    ((⟨2020, some "Aedes aegypti", none⟩ : AKey),
      (([⟨"Aedes aegypti", 2020, 5⟩] : List OccRow).filter
        (fun x => (⟨x.year, some x.species, none⟩ : AKey) =
          ⟨2020, some "Aedes aegypti", none⟩)).length) ∈
      annualCounts [⟨"Aedes aegypti", 2020, 5⟩]
        [⟨"Montgomery", "Aedes aegypti", 2020, 5⟩] true [] := by
  refine ⟨?_, ?_, ?_⟩
  · exact ((annual_bucket_key _ _ true _).1 rfl (by decide)).1
  · exact ((annual_bucket_key _ _ true _).1 rfl (by decide)).2
      ⟨"Montgomery", "Aedes aegypti", 2020, 5⟩ (by decide) (by decide)
  · exact (annual_bucket_key _ _ true []).2 (by decide)
      ⟨"Aedes aegypti", 2020, 5⟩ (by decide)

/-- One raw occurrence record as returned by
`fetch_occurrences_for_taxon` (src/app.py lines 68-74), before the
cleaning of lines 85-87: year and month may be missing. -/
structure RawOcc where
  year : Option Int
  month : Option Int
deriving DecidableEq, Repr

/-- Lines 75 and 85-87 of src/app.py: set queried_scientificName to the
selected species on every row, drop rows with missing year or month, and
read year and month as integers. -/
def cleanOcc (species : String) (l : List RawOcc) : List OccRow :=
  l.filterMap (fun r =>
    match r.year, r.month with
    | some y, some m => some ⟨species, y, m⟩
    | _, _ => none)

/-- Everything the run renders after a successful fetch (src/app.py
lines 84-215): the joined snapshot, the aggregate table, the merged map
table, and the two bucketed outputs. -/
structure RunResults where
  gdf_joined : List JoinedRow
  county_counts : List AggRow
  merged_map : List MergedRow
  monthly_counts : List (MKey × Nat)
  annual_counts : List (AKey × Nat)

/-- Outcome of one press of Run Analysis (src/app.py lines 64-82): either
`st.error` plus `st.stop()` on a fetch exception, `st.warning` plus
`st.stop()` on an empty record set, or the rendered results.  The first
two constructors carry no result data, mirroring that `st.stop()` runs
before any map, aggregate or chart is produced. -/
inductive RunOutcome where
  | fetchError (msg : String)
  | emptyWarning
  | results (r : RunResults)

/-- Lines 64-215 of src/app.py: the Run Analysis handler.  `fetch` stands
for the call to `fetch_occurrences_for_taxon` (already specialised to the
species, country, state and year range of this run), which either raises
(`Except.error`) or returns records; `assign` stands for the external
`assign_to_counties`; `geo` is the NAME_2 column of md_counties.geojson. -/
noncomputable def runAnalysis (species : String)
    (fetch : Except String (List RawOcc))
    (assign : List OccRow → List JoinedRow)
    (geo : List String) (compareCounties : Bool) (sel : List String) :
    RunOutcome :=
  match fetch with
  | .error e => .fetchError ("Failed to fetch " ++ species ++ ": " ++ e)
  | .ok occs =>
    if occs.isEmpty then .emptyWarning
    else
      let df := cleanOcc species occs
      let joined := assign df
      let agg := aggTable joined
      .results ⟨joined, agg, merged geo agg,
        monthlyCounts df joined compareCounties sel,
        annualCounts df joined compareCounties sel⟩

/-- **C8.** A fetch exception makes the run stop at the `st.error` of
line 77 of src/app.py with a message naming the species and the error,
and an empty record set makes it stop at the `st.warning` of line 81;
in both cases the outcome carries no map, aggregate or chart. -/
theorem run_halts_on_fetch_failure (species e : String)
    (assign : List OccRow → List JoinedRow) (geo : List String)
    (compareCounties : Bool) (sel : List String) :
    runAnalysis species (.error e) assign geo compareCounties sel =
      .fetchError ("Failed to fetch " ++ species ++ ": " ++ e) ∧
    runAnalysis species (.ok []) assign geo compareCounties sel =
      .emptyWarning :=
  ⟨rfl, rfl⟩

/-- **C9.** The aggregate table is a pure function of the fetched
occurrences, the selected species, and the county-assignment data: two
runs with identical species input and identical upstream data (equal
fetched record sets, same `assign_to_counties` behaviour) produce
identical (county, species) aggregate tables, occurrence_count and Risk
Score included. -/
theorem aggregate_idempotent (species species₂ : String)
    (assign : List OccRow → List JoinedRow)
    (occ occ₂ : List RawOcc)
    (hs : species = species₂) (ho : occ = occ₂) :
    aggTable (assign (cleanOcc species occ)) =
      aggTable (assign (cleanOcc species₂ occ₂)) := by
  rw [hs, ho]

/-- Witness for `aggregate_idempotent`: a one-record fetch assigned to
Howard county, rerun on the same data. -/
theorem aggregate_idempotent_witness :
    ("Aedes aegypti" = "Aedes aegypti") ∧
    ([⟨some 2021, some 6⟩] : List RawOcc) = [⟨some 2021, some 6⟩] ∧
    aggTable ((fun l => l.map
        (fun r => (⟨"Howard", r.species, r.year, r.month⟩ : JoinedRow)))
      (cleanOcc "Aedes aegypti" [⟨some 2021, some 6⟩])) =
      aggTable ((fun l => l.map
          (fun r => (⟨"Howard", r.species, r.year, r.month⟩ : JoinedRow)))
        (cleanOcc "Aedes aegypti" [⟨some 2021, some 6⟩])) :=
  ⟨rfl, rfl, aggregate_idempotent _ _ _ _ _ rfl rfl⟩


theorem groupCount_count_le {α κ : Type} [DecidableEq κ]
    {rows : List α} {k : α → κ} {p : κ × Nat}
    (hp : p ∈ groupCount rows k) : p.2 ≤ rows.length := by
  rw [groupCount_count_eq hp]
  exact List.length_filter_le _ _

theorem colMax_le {B : ℝ} (hB : 0 ≤ B) :
    ∀ {l : List ℝ}, (∀ x ∈ l, x ≤ B) → colMax l ≤ B
  | [], _ => hB
  | [y], h => h y (List.mem_singleton.mpr rfl)
  | y :: z :: t, h => by
      show max y (colMax (z :: t)) ≤ B
      exact max_le (h y (List.mem_cons_self _ _))
        (colMax_le hB (fun x hx => h x (List.mem_cons_of_mem _ hx)))

/-- The raw log1p score of a count that fits a pandas int64 row index
(at most 2^63 - 1 rows) is at most ln (2^63) = 63 ln 2. -/
theorem rawScore_le_cap {c : Nat} (hc : c ≤ 2 ^ 63 - 1) :
    rawScore c ≤ 63 * Real.log 2 := by
  have h1 : rawScore c ≤ rawScore (2 ^ 63 - 1) := rawScore_mono hc
  have hone : (1 : ℕ) ≤ 2 ^ 63 := Nat.one_le_pow _ _ (by norm_num)
  have h2 : rawScore (2 ^ 63 - 1) = 63 * Real.log 2 := by
    unfold rawScore
    have hcast : (1 : ℝ) + ((2 ^ 63 - 1 : ℕ) : ℝ) = (2 : ℝ) ^ 63 := by
      rw [Nat.cast_sub hone]
      push_cast
      ring
    rw [hcast, Real.log_pow]
    norm_num
  linarith

theorem maxRaw_le_cap {rows : List JoinedRow}
    (hlen : rows.length ≤ 2 ^ 63 - 1) :
    maxRaw rows ≤ 63 * Real.log 2 := by
  apply colMax_le
    (mul_nonneg (by norm_num) (Real.log_nonneg (by norm_num)))
  intro x hx
  rcases List.mem_map.mp hx with ⟨g, hg, hge⟩
  rw [← hge]
  exact rawScore_le_cap (le_trans (groupCount_count_le hg) hlen)

theorem round2_pos {x : ℝ} (h : 1 / 200 ≤ x) : 0 < round2 x := by
  unfold round2
  have h1 : (1 : ℤ) ≤ round (100 * x) := by
    rw [round_eq]
    apply Int.le_floor.mpr
    push_cast
    linarith
  apply div_pos _ (by norm_num)
  exact_mod_cast lt_of_lt_of_le Int.zero_lt_one (Int.cast_le.mpr h1)

/-- **C10.** Every row of the raw (pre-merge) aggregate table has
occurrence_count ≥ 1 and Risk Score strictly greater than 0: grouping
only emits (county, species) combinations observed in the joined set, and
ln (1 + c) is positive for c ≥ 1.  The hypothesis bounds the joined set
by the pandas int64 row-index capacity (2^63 - 1 rows), which every
dataframe the program can hold satisfies; under it a count-1 row's
normalized score is at least ln 2 / (63 ln 2) = 1/63 > 1/200, so the
rounding on line 106 of src/app.py yields at least 0.01 and never reaches
0. -/
theorem raw_aggregate_invariant (rows : List JoinedRow)
    (hlen : rows.length ≤ 2 ^ 63 - 1) :
    ∀ a ∈ aggTable rows,
      1 ≤ a.occurrence_count ∧ 0 < a.risk_score := by
  intro a ha
  rcases mem_aggTable ha with ⟨g, hg, hcount, hrisk⟩
  have hc : 1 ≤ g.2 := groupCount_count_pos hg
  have hc1 : 1 ≤ a.occurrence_count := by
    rw [hcount]
    exact hc
  refine ⟨hc1, ?_⟩
  rw [hrisk]
  apply round2_pos
  have hM : 0 < maxRaw rows := maxRaw_pos hg
  have hlog2 : 0 < Real.log 2 := Real.log_pos (by norm_num)
  have hnum : Real.log 2 ≤ rawScore g.2 := by
    have he : rawScore 1 = Real.log 2 := by
      unfold rawScore
      norm_num
    rw [← he]
    exact rawScore_mono hc
  have hden : maxRaw rows ≤ 63 * Real.log 2 := maxRaw_le_cap hlen
  have h63 : Real.log 2 / (63 * Real.log 2) ≤ rawScore g.2 / maxRaw rows :=
    div_le_div₀ (rawScore_nonneg _) hnum hM hden
  have h200 : (1 : ℝ) / 200 ≤ Real.log 2 / (63 * Real.log 2) := by
    rw [div_le_div_iff₀ (by norm_num) (mul_pos (by norm_num) hlog2)]
    linarith
  linarith

/-- Witness for `raw_aggregate_invariant` on a one-row joined set. -/
theorem raw_aggregate_invariant_witness :
    ([⟨"Anne Arundel", "Rattus norvegicus", 2020, 2⟩] : List JoinedRow).length
        ≤ 2 ^ 63 - 1 ∧
    ((⟨"Anne Arundel", "Rattus norvegicus", 1,
        round2 (rawScore 1 /
          maxRaw [⟨"Anne Arundel", "Rattus norvegicus", 2020, 2⟩])⟩ :
      AggRow) ∈ aggTable [⟨"Anne Arundel", "Rattus norvegicus", 2020, 2⟩]) ∧
    (1 ≤ 1 ∧ 0 < round2 (rawScore 1 /
        maxRaw [⟨"Anne Arundel", "Rattus norvegicus", 2020, 2⟩])) := by
  have hlen : ([⟨"Anne Arundel", "Rattus norvegicus", 2020, 2⟩] :
      List JoinedRow).length ≤ 2 ^ 63 - 1 := by
    norm_num
  have hcc : countyCounts [⟨"Anne Arundel", "Rattus norvegicus", 2020, 2⟩] =
      [(("Anne Arundel", "Rattus norvegicus"), 1)] := by decide
  have hmem : (⟨"Anne Arundel", "Rattus norvegicus", 1,
      round2 (rawScore 1 /
        maxRaw [⟨"Anne Arundel", "Rattus norvegicus", 2020, 2⟩])⟩ :
      AggRow) ∈ aggTable [⟨"Anne Arundel", "Rattus norvegicus", 2020, 2⟩] := by
    rw [aggTable_eq, hcc]
    exact List.mem_map.mpr ⟨(("Anne Arundel", "Rattus norvegicus"), 1),
      by simp, rfl⟩
  exact ⟨hlen, hmem, raw_aggregate_invariant _ hlen _ hmem⟩
